import Mathlib

/-!
Verification of the S-ETERN lesson-player core against its design notes.

The definitions below are a shallow embedding of the TypeScript sources:

* `PlayerState`, `LessonStep`, `LessonPlan`, `ChatMessage`, `SavedSession`
  mirror the type declarations of the repository.
* `applyFollowUpTarget` embeds the bounds check in `handleSendMessage`
  (App.tsx).
* `mergeAssetResult` embeds the `setLessonPlan` updater inside
  `startBackgroundAssetGeneration` (App.tsx).
* `sanitizeSession` and `saveSessionToStorage` embed the storage service.
* `SeqState` / `stepSeq` embed the VisualPlayer index-change effect and the
  prepare effect with its `isCancelled` closure flag, together with the
  TTS requests the prepare closure performs.
* `PlayerModel` / `stepPlayer` embed the VisualPlayer playback effect,
  `playPCM`, the muted timed-completion branch and `handleNextStep`,
  with the asynchronous callbacks (context resume, timers, the grace
  delay inside `handleEnded`) made explicit as scheduler events.
* `TtsState` / `stepTts` embed `generateGeminiTTS` and its module cache.
* `LiveState` / `toggleLiveSession` embed the live-session toggle.

State that lives in React refs or closures is represented as record
fields; every `await` boundary of the source becomes a scheduler event,
so an execution of the model is one interleaving of the cooperative
event loop the code runs on.
-/

/-- Playback phase enumeration of the repository (`PlayerState` in
part_001). -/
inductive PlayerState where
  | IDLE
  | LOADING
  | PLAYING
  | PAUSED
  | COMPLETED
  | ERROR
deriving Repr, DecidableEq

/-- Focus coordinates of a lesson step (part_001). -/
structure Coordinates where
  top : Int
  left : Int
deriving Repr, DecidableEq

/-- One lesson step (interface `LessonStep` in part_001). `imageUrl`,
`coordinates` and `sketchfab_model_id` are the optional fields. -/
structure LessonStep where
  index : Nat
  title : String
  narration : String
  narration_hindi : String
  diagram_scrape_query : String
  diagram_role : String
  overlay_description : String
  suggested_duration_ms : Nat
  imageUrl : Option String
  coordinates : Option Coordinates
  sketchfab_model_id : Option String
deriving Repr, DecidableEq

/-- A lesson plan: a topic identity string and its ordered steps
(interface `LessonPlan` in part_001). -/
structure LessonPlan where
  topic : String
  steps : List LessonStep
deriving Repr, DecidableEq

/-- A chat message (interface `ChatMessage` in part_001); the role is kept
as a plain string ("user" or "tutor"). -/
structure ChatMessage where
  id : String
  role : String
  text : String
  timestamp : String
  isSystem : Option Bool
deriving Repr, DecidableEq

/-- A persisted session snapshot (interface `SavedSession`). -/
structure SavedSession where
  id : String
  topic : String
  lastActive : String
  lessonPlan : LessonPlan
  messages : List ChatMessage
  currentStepIndex : Nat
deriving Repr, DecidableEq

/-- Bounds check applied to a follow-up response in `handleSendMessage`
(App.tsx): the current index moves to `targetStepIndex` only when
`0 <= targetStepIndex < steps.length`; otherwise it is left unchanged.
`targetStepIndex` is an arbitrary integer supplied by the collaborator. -/
def applyFollowUpTarget (targetStepIndex : Int) (cur : Nat) (numSteps : Nat) : Nat :=
  if 0 ≤ targetStepIndex ∧ targetStepIndex < (numSteps : Int) then
    targetStepIndex.toNat
  else
    cur

/-- Replace the `imageUrl` of the step at position `i`, leaving every other
step untouched. Embeds `newSteps[index] = { ...newSteps[index], imageUrl }`
for an in-bounds index (the enrichment pipeline only produces in-bounds
indices, since it iterates over the steps of the plan itself). -/
def setImageAt : List LessonStep → Nat → String → List LessonStep
  | [], _, _ => []
  | st :: rest, 0, u => { st with imageUrl := some u } :: rest
  | st :: rest, n + 1, u => st :: setImageAt rest n u

/-- The `setLessonPlan` functional updater inside
`startBackgroundAssetGeneration` (App.tsx): a resolved visual for step
`i` of the plan requested under topic `reqTopic` is merged into the live
plan `prev` only when `prev` still exists and carries the same topic;
otherwise `prev` is returned unchanged. -/
def mergeAssetResult (prev : Option LessonPlan) (reqTopic : String)
    (i : Nat) (finalUrl : String) : Option LessonPlan :=
  match prev with
  | none => none
  | some p =>
      if p.topic ≠ reqTopic then some p
      else some { p with steps := setImageAt p.steps i finalUrl }

/-- True when a step holds a base64 data URL as its image
(`step.imageUrl.startsWith("data:")` in the storage service). -/
def stepHasDataUrl (st : LessonStep) : Bool :=
  match st.imageUrl with
  | some u => u.startsWith "data:"
  | none => false

/-- Per-step part of `sanitizeSession` (storage service): a base64 image is
removed, any other image URL is kept. -/
def sanitizeStep (st : LessonStep) : LessonStep :=
  if stepHasDataUrl st then { st with imageUrl := none } else st

/-- `sanitizeSession` (storage service): a deep copy of the session whose
steps have their base64 images stripped; nothing else changes. -/
def sanitizeSession (s : SavedSession) : SavedSession :=
  { s with lessonPlan := { s.lessonPlan with steps := s.lessonPlan.steps.map sanitizeStep } }

/-- True when no step of the session stores a base64 image. -/
def sessionClean (s : SavedSession) : Bool :=
  s.lessonPlan.steps.all (fun st => !stepHasDataUrl st)

/-- `saveSessionToStorage` (storage service), success path: sanitize the
session, drop any stored entry with the same id, put the clean copy first
and keep at most 10 entries. The stored list is the explicit state. -/
def saveSessionToStorage (session : SavedSession) (existing : List SavedSession) :
    List SavedSession :=
  let cleanSession := sanitizeSession session
  let filtered := existing.filter (fun s => s.id ≠ cleanSession.id)
  (cleanSession :: filtered).take 10

/-- One run of the VisualPlayer prepare effect (App.tsx, `prepare`): the
closure spawned for the step that was current when the effect ran. The
captured render values (`isMuted`, `currentText`) and the `isCancelled`
flag set by the effect cleanup are explicit fields. `ttsIssued` records
whether the closure has already reached its `generateGeminiTTS` call. -/
structure PrepTask where
  tid : Nat
  target : Nat
  capMuted : Bool
  capText : String
  cancelled : Bool
  ttsIssued : Bool
deriving Repr, DecidableEq

/-- Sequencer-side state of the VisualPlayer: the externally driven index,
the internally committed index (initially `-1`), the preparing flag, the
prepared audio, the mute flag, the set of prepare closures ever spawned,
and a log of the synthesis requests issued by those closures. -/
structure SeqState where
  plan : List String
  currentStepIndex : Nat
  internalStepIndex : Int
  isPreparing : Bool
  readyAudio : Option String
  isMuted : Bool
  tasks : List PrepTask
  ttsLog : List (Nat × String)
  nextId : Nat
deriving Repr, DecidableEq

/-- Scheduler events of the sequencer/preparation pipeline. `setIndex` is
an external index change committed by React (user navigation, follow-up
answer or auto-advance); `toggleMute` the mute button; the remaining
events are resumption points of a prepare closure: reaching its
`generateGeminiTTS` call, receiving the synthesis result, and the 500 ms
settle timer firing. -/
inductive SeqEvent where
  | mountFlow
  | setIndex (n : Nat)
  | toggleMute
  | issueTTS (tid : Nat)
  | audioReady (tid : Nat) (a : Option String)
  | settleDone (tid : Nat)
deriving Repr, DecidableEq

/-- Mark a prepare closure cancelled: the effect cleanup `isCancelled =
true`. -/
def cancelTask (t : PrepTask) : PrepTask :=
  { t with cancelled := true }

/-- Index-change reaction (App.tsx, VisualPlayer index-change effect plus
the prepare effect re-run caused by the dependency change): stop audio,
enter the preparing state, commit the new internal index, clear the ready
audio, cancel every pending prepare closure and spawn a fresh one that
captures the current mute flag and narration text. When the index is out
of the plan (no step), only the cleanup cancellation happens. -/
def flowCommit (s : SeqState) : SeqState :=
  if h : s.currentStepIndex < s.plan.length then
    { s with
      isPreparing := true
      internalStepIndex := (s.currentStepIndex : Int)
      readyAudio := none
      tasks := s.tasks.map cancelTask ++
        [⟨s.nextId, s.currentStepIndex, s.isMuted, s.plan.get ⟨s.currentStepIndex, h⟩, false, false⟩]
      nextId := s.nextId + 1 }
  else
    { s with tasks := s.tasks.map cancelTask }

/-- One scheduler step of the sequencer/preparation model. Each branch is
read off the corresponding source location; see the event descriptions. -/
def stepSeq (e : SeqEvent) (s : SeqState) : SeqState :=
  match e with
  | .mountFlow =>
      if s.internalStepIndex ≠ (s.currentStepIndex : Int) then flowCommit s else s
  | .setIndex n =>
      if n = s.currentStepIndex then s
      else flowCommit { s with currentStepIndex := n }
  | .toggleMute =>
      let m := !s.isMuted
      if h : s.isPreparing ∧ s.currentStepIndex < s.plan.length then
        { s with
          isMuted := m
          tasks := s.tasks.map cancelTask ++
            [⟨s.nextId, s.currentStepIndex, m, s.plan.get ⟨s.currentStepIndex, h.2⟩, false, false⟩]
          nextId := s.nextId + 1 }
      else
        { s with isMuted := m, tasks := s.tasks.map cancelTask }
  | .issueTTS tid =>
      match s.tasks.find? (fun t => t.tid = tid) with
      | some t =>
          if !t.ttsIssued && !t.capMuted then
            { s with
              ttsLog := s.ttsLog ++ [(t.target, t.capText)]
              tasks := s.tasks.map (fun u => if u.tid = tid then { u with ttsIssued := true } else u) }
          else s
      | none => s
  | .audioReady tid a =>
      match s.tasks.find? (fun t => t.tid = tid) with
      | some t => if t.cancelled then s else { s with readyAudio := a }
      | none => s
  | .settleDone tid =>
      match s.tasks.find? (fun t => t.tid = tid) with
      | some t => if t.cancelled then s else { s with isPreparing := false }
      | none => s

/-- Initial sequencer state: index 0, internal index -1 (nothing committed
yet), not preparing, no audio, given mute flag, no closures. -/
def initSeq (plan : List String) (muted : Bool) : SeqState :=
  { plan := plan
    currentStepIndex := 0
    internalStepIndex := -1
    isPreparing := false
    readyAudio := none
    isMuted := muted
    tasks := []
    ttsLog := []
    nextId := 1 }

/-- Run a list of scheduler events from the initial sequencer state. -/
def execSeq (plan : List String) (muted : Bool) (evs : List SeqEvent) : SeqState :=
  evs.foldl (fun s e => stepSeq e s) (initSeq plan muted)

/-- Values captured by the `handleEnded` closure of one playback-effect run
(App.tsx): the render values of `playerState`, `currentStepIndex`,
`internalStepIndex` and the plan length used by the captured
`handleNextStep`. The playback effect only runs when
`playerState = PLAYING` and the two indices agree, so these captured
values always satisfy the guard inside `handleEnded`. -/
structure EndedCapture where
  playerState : PlayerState
  currentStepIndex : Nat
  internalStepIndex : Int
  planLength : Nat
deriving Repr, DecidableEq

/-- A muted-branch timer: `setTimeout(handleEnded, duration)`. The timer
records the narration-text length it was armed with; its delay is
`silentDurationMs textLen` milliseconds (kept as a separate pure formula
so the scheduler state stays in decidable integer arithmetic). -/
structure SilentTimer where
  tid : Nat
  textLen : Nat
  cap : EndedCapture
deriving Repr, DecidableEq

/-- The 1000 ms grace timeout spawned inside `handleEnded`. -/
structure GraceTimer where
  gid : Nat
  cap : EndedCapture
deriving Repr, DecidableEq

/-- A live device buffer source (`AudioBufferSourceNode`) that has been
started and neither stopped nor ended, with the `onended` capture. -/
structure PcmSource where
  sid : Nat
  cap : EndedCapture
deriving Repr, DecidableEq

/-- A `playPCM` invocation suspended at `await ctx.resume()`; once the
resume promise resolves it starts its source unconditionally (the source
contains no staleness re-check after the await). -/
structure PcmPendingStart where
  pid : Nat
  cap : EndedCapture
deriving Repr, DecidableEq

/-- A speaking platform utterance with its `onend` capture. -/
structure Utterance where
  uid : Nat
  cap : EndedCapture
deriving Repr, DecidableEq

/-- The silent duration of the muted branch:
`Math.max(3000, (currentText.length / 15) * 1000)` milliseconds, as exact
rational arithmetic. -/
def silentDurationMs (len : Nat) : ℚ :=
  max 3000 ((len : ℚ) / 15 * 1000)

/-- Playback-side state of the VisualPlayer: the sequencer fields read by
the playback effect, the audio handles (`audioSourceRef`, the set of
started-and-still-playing sources, the platform utterance), the suspended
`playPCM` calls, the pending muted timers and grace timeouts, and a log of
the narration lengths the muted branch armed timers for. -/
structure PlayerModel where
  plan : List String
  currentStepIndex : Nat
  internalStepIndex : Int
  playerState : PlayerState
  isMuted : Bool
  isPreparing : Bool
  readyAudio : Option String
  audioSourceRef : Option Nat
  playingSources : List PcmSource
  utteranceActive : Option Utterance
  ctxSuspended : Bool
  pcmPending : List PcmPendingStart
  timers : List SilentTimer
  graces : List GraceTimer
  timedLens : List Nat
  nextId : Nat
deriving Repr, DecidableEq

/-- `stopAudio` (App.tsx): cancel the platform speech queue, stop and
release the source held by `audioSourceRef`. Only the referenced source is
stopped; a source whose reference was overwritten keeps playing. -/
def stopAudio (s : PlayerModel) : PlayerModel :=
  { s with
    utteranceActive := none
    playingSources :=
      match s.audioSourceRef with
      | some k => s.playingSources.filter (fun src => src.sid ≠ k)
      | none => s.playingSources
    audioSourceRef := none }

/-- `handleNextStep` (App.tsx): the guard reads the values captured by the
`useCallback` closure (`capLen`, `capIdx`, `capPS`), while the functional
`setCurrentStepIndex(prev => prev + 1)` update acts on the live index.
Returns the new (index, playerState) pair. -/
def handleNextStep (capLen capIdx : Nat) (capPS : PlayerState)
    (liveIdx : Nat) (livePS : PlayerState) : Nat × PlayerState :=
  if capIdx < capLen - 1 then
    (liveIdx + 1, if capPS ≠ PlayerState.PLAYING then PlayerState.PLAYING else livePS)
  else
    (liveIdx, PlayerState.COMPLETED)

/-- Index-change reaction on the playback side (the VisualPlayer
index-change effect together with the playback-effect cleanup, which both
run at the commit that changes the index): stop audio, set the preparing
flag, commit the internal index, clear the ready audio. Timers and
suspended `playPCM` calls are untouched: the source clears neither. -/
def playerFlowCommit (s : PlayerModel) : PlayerModel :=
  if s.currentStepIndex < s.plan.length ∧ s.internalStepIndex ≠ (s.currentStepIndex : Int) then
    { stopAudio s with
      isPreparing := true
      internalStepIndex := (s.currentStepIndex : Int)
      readyAudio := none }
  else s

/-- Apply a (index, playerState) pair produced by `handleNextStep` to the
state and run the reactions of that commit: when nothing changed React
bails out; otherwise the playback-effect cleanup stops audio and the
index-change effect commits the new index. -/
def applyAdvance (s : PlayerModel) (upd : Nat × PlayerState) : PlayerModel :=
  if upd.1 = s.currentStepIndex ∧ upd.2 = s.playerState then s
  else
    playerFlowCommit (stopAudio { s with currentStepIndex := upd.1, playerState := upd.2 })

/-- Scheduler events of the playback model. `mountPlayer` is the first
effect pass after mount; `userNext` the next-button click (it calls the
current `handleNextStep`); `prepDone` the live preparation resolving with
its audio; `runPlayback` the playback effect body running after a commit;
`resumeDone` the `ctx.resume()` promise resolving (the first suspended
`playPCM` call proceeds and starts its source); `pcmEnded` /
`speechEnded` the natural end of a source or utterance; `timerFire` a
muted-branch timer firing (`handleEnded` runs and arms the grace
timeout); `graceFire` the grace timeout firing (the captured guard is
checked and the captured `onNextStep` called). -/
inductive PlayerEvent where
  | mountPlayer
  | userNext
  | prepDone (a : Option String)
  | runPlayback
  | resumeDone
  | pcmEnded (sid : Nat)
  | speechEnded
  | timerFire (tid : Nat)
  | graceFire (gid : Nat)
deriving Repr, DecidableEq

/-- One scheduler step of the playback model; each branch is read off the
corresponding source location (playback effect, `playPCM`,
`fallbackToWebSpeech` reduced to its utterance handle, `handleEnded`,
`handleNextStep`). -/
def stepPlayer (e : PlayerEvent) (s : PlayerModel) : PlayerModel :=
  match e with
  | .mountPlayer => playerFlowCommit s
  | .userNext =>
      applyAdvance s
        (handleNextStep s.plan.length s.currentStepIndex s.playerState
          s.currentStepIndex s.playerState)
  | .prepDone a =>
      if s.isPreparing then { s with readyAudio := a, isPreparing := false } else s
  | .runPlayback =>
      if s.isPreparing ∨ s.internalStepIndex ≠ (s.currentStepIndex : Int) ∨
          s.playerState ≠ PlayerState.PLAYING then s
      else
        let s₁ := stopAudio s
        let cap : EndedCapture :=
          ⟨s.playerState, s.currentStepIndex, s.internalStepIndex, s.plan.length⟩
        match s.readyAudio, s.isMuted with
        | some _, false =>
            if s.ctxSuspended then
              { s₁ with pcmPending := s₁.pcmPending ++ [⟨s₁.nextId, cap⟩], nextId := s₁.nextId + 1 }
            else
              { s₁ with
                audioSourceRef := some s₁.nextId
                playingSources := ⟨s₁.nextId, cap⟩ :: s₁.playingSources
                nextId := s₁.nextId + 1 }
        | none, false =>
            { s₁ with utteranceActive := some ⟨s₁.nextId, cap⟩, nextId := s₁.nextId + 1 }
        | _, true =>
            let text := (s.plan.get? s.currentStepIndex).getD ""
            { s₁ with
              timers := s₁.timers ++ [⟨s₁.nextId, text.length, cap⟩]
              timedLens := s₁.timedLens ++ [text.length]
              nextId := s₁.nextId + 1 }
  | .resumeDone =>
      match s.pcmPending with
      | [] => s
      | p :: rest =>
          { s with
            pcmPending := rest
            ctxSuspended := false
            audioSourceRef := some p.pid
            playingSources := ⟨p.pid, p.cap⟩ :: s.playingSources }
  | .pcmEnded sid =>
      match s.playingSources.find? (fun src => src.sid = sid) with
      | some src =>
          { s with
            playingSources := s.playingSources.filter (fun x => x.sid ≠ sid)
            graces := s.graces ++ [⟨s.nextId, src.cap⟩]
            nextId := s.nextId + 1 }
      | none => s
  | .speechEnded =>
      match s.utteranceActive with
      | some u =>
          { s with
            utteranceActive := none
            graces := s.graces ++ [⟨s.nextId, u.cap⟩]
            nextId := s.nextId + 1 }
      | none => s
  | .timerFire tid =>
      match s.timers.find? (fun t => t.tid = tid) with
      | some t =>
          { s with
            timers := s.timers.filter (fun x => x.tid ≠ tid)
            graces := s.graces ++ [⟨s.nextId, t.cap⟩]
            nextId := s.nextId + 1 }
      | none => s
  | .graceFire gid =>
      match s.graces.find? (fun g => g.gid = gid) with
      | some g =>
          let s₁ := { s with graces := s.graces.filter (fun x => x.gid ≠ gid) }
          if g.cap.playerState = PlayerState.PLAYING ∧
              g.cap.internalStepIndex = (g.cap.currentStepIndex : Int) then
            applyAdvance s₁
              (handleNextStep g.cap.planLength g.cap.currentStepIndex g.cap.playerState
                s₁.currentStepIndex s₁.playerState)
          else s₁
      | none => s

/-- Initial playback state: index 0, nothing committed, given play intent
and mute flag, audio context still suspended (no resume has completed),
no handles, no timers. -/
def initPlayer (plan : List String) (muted : Bool) (ps : PlayerState) : PlayerModel :=
  { plan := plan
    currentStepIndex := 0
    internalStepIndex := -1
    playerState := ps
    isMuted := muted
    isPreparing := false
    readyAudio := none
    audioSourceRef := none
    playingSources := []
    utteranceActive := none
    ctxSuspended := true
    pcmPending := []
    timers := []
    graces := []
    timedLens := []
    nextId := 1 }

/-- Run a list of scheduler events from an initial playback state. -/
def execPlayer (plan : List String) (muted : Bool) (ps : PlayerState)
    (evs : List PlayerEvent) : PlayerModel :=
  evs.foldl (fun s e => stepPlayer e s) (initPlayer plan muted ps)

/-- Whitespace test used by the embedded `trim` (space, tab, newline,
carriage return). -/
def isWsChar (c : Char) : Bool :=
  c = ' ' || c = '\t' || c = '\n' || c = '\r'

/-- The `text.trim()` call of `generateGeminiTTS`, embedded as an explicit
computation over the character list: leading and trailing whitespace is
removed. -/
def trimText (s : String) : String :=
  String.mk (((s.data.dropWhile isWsChar).reverse.dropWhile isWsChar).reverse)

/-- A `generateGeminiTTS` invocation currently awaiting the gateway
response (ttsService.ts). -/
structure TtsCaller where
  cid : Nat
  text : String
deriving Repr, DecidableEq

/-- State of the synthesis gateway wrapper: the module-level `audioCache`
map (association list keyed by the trimmed text), the in-flight callers,
the log of texts actually sent to the gateway, and the values returned to
each caller. -/
structure TtsState where
  audioCache : List (String × String)
  callers : List TtsCaller
  gatewayLog : List String
  results : List (Nat × Option String)
deriving Repr, DecidableEq

/-- Look a key up in the association-list cache (`audioCache.get`). -/
def cacheLookup (cache : List (String × String)) (key : String) : Option String :=
  match cache.find? (fun kv => kv.1 = key) with
  | some kv => some kv.2
  | none => none

/-- Store a key (`audioCache.set`): replace the binding when the key is
present, append it otherwise. -/
def cacheInsert (cache : List (String × String)) (key val : String) :
    List (String × String) :=
  if (cache.find? (fun kv => kv.1 = key)).isSome then
    cache.map (fun kv => if kv.1 = key then (key, val) else kv)
  else
    cache ++ [(key, val)]

/-- Scheduler events of the gateway wrapper: `call` is the synchronous
prefix of `generateGeminiTTS` up to its gateway request (empty-text
short-circuit, cache check, then the request); `gatewayReturn` is the
response resuming a suspended caller (`some` data on success, `none` for
the no-data, 429 and error paths, none of which write the cache). -/
inductive TtsEvent where
  | call (cid : Nat) (text : String)
  | gatewayReturn (cid : Nat) (r : Option String)
deriving Repr, DecidableEq

/-- One scheduler step of the gateway wrapper, read off
`generateGeminiTTS` (ttsService.ts). -/
def stepTts (e : TtsEvent) (s : TtsState) : TtsState :=
  match e with
  | .call cid text =>
      if text = "" then { s with results := s.results ++ [(cid, none)] }
      else
        let cacheKey := trimText text
        match cacheLookup s.audioCache cacheKey with
        | some b => { s with results := s.results ++ [(cid, some b)] }
        | none =>
            { s with
              callers := s.callers ++ [⟨cid, text⟩]
              gatewayLog := s.gatewayLog ++ [text] }
  | .gatewayReturn cid r =>
      match s.callers.find? (fun c => c.cid = cid) with
      | some c =>
          let s₁ := { s with callers := s.callers.filter (fun x => x.cid ≠ cid) }
          match r with
          | some b =>
              { s₁ with
                audioCache := cacheInsert s₁.audioCache (trimText c.text) b
                results := s₁.results ++ [(cid, some b)] }
          | none => { s₁ with results := s₁.results ++ [(cid, none)] }
      | none => s

/-- Empty gateway state: cold cache, nothing in flight. -/
def initTts : TtsState :=
  { audioCache := [], callers := [], gatewayLog := [], results := [] }

/-- Run a list of gateway events from the empty state. -/
def execTts (evs : List TtsEvent) : TtsState :=
  evs.foldl (fun s e => stepTts e s) initTts

/-- Count how many times a given text was sent to the gateway. -/
def gatewayCalls (s : TtsState) (text : String) : Nat :=
  s.gatewayLog.countP (fun t => t = text)

/-- State read and written by `toggleLiveSession` (App.tsx): the play
intent, the live flag, the step index, and whether any audio is active. -/
structure LiveState where
  playerState : PlayerState
  isLiveSession : Bool
  currentStepIndex : Nat
  audioActive : Bool
deriving Repr, DecidableEq

/-- `toggleLiveSession` (App.tsx): deactivation stops the live service and
clears the flag, nothing else; activation calls `onPause()` (play intent
becomes `PAUSED`), stops audio and sets the flag. -/
def toggleLiveSession (s : LiveState) : LiveState :=
  if s.isLiveSession then
    { s with isLiveSession := false }
  else
    { s with
      playerState := PlayerState.PAUSED
      audioActive := false
      isLiveSession := true }

/-- A narration text of a given length (for concrete scenarios). -/
def mkText (n : Nat) : String := String.mk (List.replicate n 'a')

/-- Scenario schedule refuting the single-active-handle invariant: step 0
is prepared and its `playPCM` suspends at `await ctx.resume()`; the user
advances; step 1 is prepared and its `playPCM` suspends at the same
still-pending resume; the resume promise then resolves and both suspended
calls start their sources back to back, with no staleness re-check and no
`stopAudio` between them. -/
def c2Trace : List PlayerEvent :=
  [PlayerEvent.mountPlayer, PlayerEvent.prepDone (some "A0"), PlayerEvent.runPlayback,
   PlayerEvent.userNext, PlayerEvent.prepDone (some "A1"), PlayerEvent.runPlayback,
   PlayerEvent.resumeDone, PlayerEvent.resumeDone]

/-- Scenario schedule for the superseded muted timer: step 0 plays muted
(timer 1 armed for it), the user advances to step 1 before the timer
fires (the cleanup runs `stopAudio` only — the timer stays armed), step 1
is prepared and its own timer 2 armed; then the stale timer 1 fires,
`handleEnded` runs, and its grace timeout advances using the captured
render values of step 0. -/
def c3Trace : List PlayerEvent :=
  [PlayerEvent.mountPlayer, PlayerEvent.prepDone none, PlayerEvent.runPlayback,
   PlayerEvent.userNext, PlayerEvent.prepDone none, PlayerEvent.runPlayback,
   PlayerEvent.timerFire 1, PlayerEvent.graceFire 3]

/-- The three-step plan of the muted-run scenario: narration lengths 30,
60 and 90 characters. -/
def c7Plan : List String := [mkText 30, mkText 60, mkText 90]

/-- The uninterrupted muted run of `c7Plan` from step 0: each step is
prepared (no audio while muted), its playback effect arms the silent
timer, the timer fires, and the grace timeout advances; the last advance
reaches the end of the plan. -/
def c7Trace : List PlayerEvent :=
  [PlayerEvent.mountPlayer, PlayerEvent.prepDone none, PlayerEvent.runPlayback,
   PlayerEvent.timerFire 1, PlayerEvent.graceFire 2,
   PlayerEvent.prepDone none, PlayerEvent.runPlayback,
   PlayerEvent.timerFire 3, PlayerEvent.graceFire 4,
   PlayerEvent.prepDone none, PlayerEvent.runPlayback,
   PlayerEvent.timerFire 5, PlayerEvent.graceFire 6]

/-- Invariant of the sequencer/preparation model: every prepare closure
that is not cancelled targets the current index (the index-change and
mute-toggle commits cancel all closures before spawning a new one), task
ids are below the id counter, and task ids identify tasks. -/
def InvSeq (s : SeqState) : Prop :=
  (∀ t ∈ s.tasks, t.cancelled = false → t.target = s.currentStepIndex) ∧
  (∀ t ∈ s.tasks, t.tid < s.nextId) ∧
  (∀ t₁ ∈ s.tasks, ∀ t₂ ∈ s.tasks, t₁.tid = t₂.tid → t₁ = t₂)


theorem cancelTask_tid (t : PrepTask) : (cancelTask t).tid = t.tid := rfl

theorem cancelTask_cancelled (t : PrepTask) : (cancelTask t).cancelled = true := rfl

theorem invSeq_respawn (tasks : List PrepTask) (nid cur : Nat) (m : Bool) (text : String)
    (h2 : ∀ t ∈ tasks, t.tid < nid)
    (h3 : ∀ t₁ ∈ tasks, ∀ t₂ ∈ tasks, t₁.tid = t₂.tid → t₁ = t₂) :
    (∀ t ∈ tasks.map cancelTask ++ [(⟨nid, cur, m, text, false, false⟩ : PrepTask)],
      t.cancelled = false → t.target = cur) ∧
    (∀ t ∈ tasks.map cancelTask ++ [(⟨nid, cur, m, text, false, false⟩ : PrepTask)],
      t.tid < nid + 1) ∧
    (∀ t₁ ∈ tasks.map cancelTask ++ [(⟨nid, cur, m, text, false, false⟩ : PrepTask)],
      ∀ t₂ ∈ tasks.map cancelTask ++ [(⟨nid, cur, m, text, false, false⟩ : PrepTask)],
      t₁.tid = t₂.tid → t₁ = t₂) := by
  refine ⟨?_, ?_, ?_⟩
  · intro t ht hc
    rcases List.mem_append.mp ht with hmem | hmem
    · rcases List.mem_map.mp hmem with ⟨u, _, rfl⟩
      rw [cancelTask_cancelled] at hc
      cases hc
    · rw [List.mem_singleton] at hmem
      subst hmem
      rfl
  · intro t ht
    rcases List.mem_append.mp ht with hmem | hmem
    · rcases List.mem_map.mp hmem with ⟨u, hu, rfl⟩
      rw [cancelTask_tid]
      exact Nat.lt_succ_of_lt (h2 u hu)
    · rw [List.mem_singleton] at hmem
      subst hmem
      exact Nat.lt_succ_self nid
  · intro t₁ ht₁ t₂ ht₂ heq
    rcases List.mem_append.mp ht₁ with hm₁ | hm₁ <;>
      rcases List.mem_append.mp ht₂ with hm₂ | hm₂
    · rcases List.mem_map.mp hm₁ with ⟨u₁, hu₁, rfl⟩
      rcases List.mem_map.mp hm₂ with ⟨u₂, hu₂, rfl⟩
      rw [cancelTask_tid, cancelTask_tid] at heq
      rw [h3 u₁ hu₁ u₂ hu₂ heq]
    · rcases List.mem_map.mp hm₁ with ⟨u₁, hu₁, rfl⟩
      rw [List.mem_singleton] at hm₂
      subst hm₂
      rw [cancelTask_tid] at heq
      exact absurd heq (Nat.ne_of_lt (h2 u₁ hu₁))
    · rcases List.mem_map.mp hm₂ with ⟨u₂, hu₂, rfl⟩
      rw [List.mem_singleton] at hm₁
      subst hm₁
      rw [cancelTask_tid] at heq
      exact absurd heq.symm (Nat.ne_of_lt (h2 u₂ hu₂))
    · rw [List.mem_singleton] at hm₁
      rw [List.mem_singleton] at hm₂
      subst hm₁
      subst hm₂
      rfl

theorem invSeq_cancelAll (tasks : List PrepTask) (cur nid : Nat)
    (h2 : ∀ t ∈ tasks, t.tid < nid)
    (h3 : ∀ t₁ ∈ tasks, ∀ t₂ ∈ tasks, t₁.tid = t₂.tid → t₁ = t₂) :
    (∀ t ∈ tasks.map cancelTask, t.cancelled = false → t.target = cur) ∧
    (∀ t ∈ tasks.map cancelTask, t.tid < nid) ∧
    (∀ t₁ ∈ tasks.map cancelTask, ∀ t₂ ∈ tasks.map cancelTask, t₁.tid = t₂.tid → t₁ = t₂) := by
  refine ⟨?_, ?_, ?_⟩
  · intro t ht hc
    rcases List.mem_map.mp ht with ⟨u, _, rfl⟩
    rw [cancelTask_cancelled] at hc
    cases hc
  · intro t ht
    rcases List.mem_map.mp ht with ⟨u, hu, rfl⟩
    rw [cancelTask_tid]
    exact h2 u hu
  · intro t₁ ht₁ t₂ ht₂ heq
    rcases List.mem_map.mp ht₁ with ⟨u₁, hu₁, rfl⟩
    rcases List.mem_map.mp ht₂ with ⟨u₂, hu₂, rfl⟩
    rw [cancelTask_tid, cancelTask_tid] at heq
    rw [h3 u₁ hu₁ u₂ hu₂ heq]

theorem invSeq_flowCommit (s : SeqState)
    (h2 : ∀ t ∈ s.tasks, t.tid < s.nextId)
    (h3 : ∀ t₁ ∈ s.tasks, ∀ t₂ ∈ s.tasks, t₁.tid = t₂.tid → t₁ = t₂) :
    InvSeq (flowCommit s) := by
  unfold flowCommit
  split
  · exact invSeq_respawn s.tasks s.nextId s.currentStepIndex s.isMuted _ h2 h3
  · exact invSeq_cancelAll s.tasks s.currentStepIndex s.nextId h2 h3

theorem invSeq_step (e : SeqEvent) (s : SeqState) (h : InvSeq s) : InvSeq (stepSeq e s) := by
  obtain ⟨h1, h2, h3⟩ := h
  cases e with
  | mountFlow =>
      simp only [stepSeq]
      split
      · exact invSeq_flowCommit s h2 h3
      · exact ⟨h1, h2, h3⟩
  | setIndex n =>
      simp only [stepSeq]
      split
      · exact ⟨h1, h2, h3⟩
      · exact invSeq_flowCommit { s with currentStepIndex := n } h2 h3
  | toggleMute =>
      simp only [stepSeq]
      split
      · exact invSeq_respawn s.tasks s.nextId s.currentStepIndex (!s.isMuted) _ h2 h3
      · exact invSeq_cancelAll s.tasks s.currentStepIndex s.nextId h2 h3
  | issueTTS tid =>
      simp only [stepSeq]
      split
      · split
        · refine ⟨?_, ?_, ?_⟩
          · intro u hu hc
            rcases List.mem_map.mp hu with ⟨v, hv, rfl⟩
            by_cases hvt : v.tid = tid
            · rw [if_pos hvt] at hc ⊢
              exact h1 v hv hc
            · rw [if_neg hvt] at hc ⊢
              exact h1 v hv hc
          · intro u hu
            rcases List.mem_map.mp hu with ⟨v, hv, rfl⟩
            by_cases hvt : v.tid = tid
            · rw [if_pos hvt]
              exact h2 v hv
            · rw [if_neg hvt]
              exact h2 v hv
          · intro u₁ hu₁ u₂ hu₂ heq
            rcases List.mem_map.mp hu₁ with ⟨v₁, hv₁, rfl⟩
            rcases List.mem_map.mp hu₂ with ⟨v₂, hv₂, rfl⟩
            have htid : v₁.tid = v₂.tid := by
              by_cases ha : v₁.tid = tid <;> by_cases hb : v₂.tid = tid
              · rw [ha, hb]
              · rw [if_pos ha, if_neg hb] at heq
                exact heq
              · rw [if_neg ha, if_pos hb] at heq
                exact heq
              · rw [if_neg ha, if_neg hb] at heq
                exact heq
            rw [h3 v₁ hv₁ v₂ hv₂ htid]
        · exact ⟨h1, h2, h3⟩
      · exact ⟨h1, h2, h3⟩
  | audioReady tid a =>
      simp only [stepSeq]
      split
      · split
        · exact ⟨h1, h2, h3⟩
        · exact ⟨h1, h2, h3⟩
      · exact ⟨h1, h2, h3⟩
  | settleDone tid =>
      simp only [stepSeq]
      split
      · split
        · exact ⟨h1, h2, h3⟩
        · exact ⟨h1, h2, h3⟩
      · exact ⟨h1, h2, h3⟩

theorem invSeq_init (plan : List String) (muted : Bool) : InvSeq (initSeq plan muted) := by
  refine ⟨?_, ?_, ?_⟩ <;> intro t ht <;> cases ht

theorem invSeq_foldl (evs : List SeqEvent) (s : SeqState) (h : InvSeq s) :
    InvSeq (evs.foldl (fun s e => stepSeq e s) s) := by
  induction evs generalizing s with
  | nil => exact h
  | cons e rest ih => exact ih (stepSeq e s) (invSeq_step e s h)

theorem invSeq_exec (plan : List String) (muted : Bool) (evs : List SeqEvent) :
    InvSeq (execSeq plan muted evs) :=
  invSeq_foldl evs (initSeq plan muted) (invSeq_init plan muted)

/-- C1: a step-index change cancels the pending PreparationTask before its
results can land, so a task whose target is no longer the current index is
cancelled in every reachable state, and both of its remaining resumption
points — applying the synthesis result (`setReadyAudio`) and ending the
Loading phase after the settle delay (`setIsPreparing(false)`) — leave the
whole sequencer state unchanged: the stale completion is a no-op, and only
the task targeting the latest index can set the ready audio or clear the
preparing flag. -/
theorem c1_stale_preparation_noop (plan : List String) (muted : Bool)
    (evs : List SeqEvent) (t : PrepTask) (a : Option String)
    (ht : t ∈ (execSeq plan muted evs).tasks)
    (hstale : t.target ≠ (execSeq plan muted evs).currentStepIndex) :
    stepSeq (SeqEvent.audioReady t.tid a) (execSeq plan muted evs) = execSeq plan muted evs ∧
    stepSeq (SeqEvent.settleDone t.tid) (execSeq plan muted evs) = execSeq plan muted evs := by
  obtain ⟨h1, h2, h3⟩ := invSeq_exec plan muted evs
  have hcanc : t.cancelled = true := by
    cases hcb : t.cancelled
    · exact absurd (h1 t ht hcb) hstale
    · rfl
  have hfind : (execSeq plan muted evs).tasks.find? (fun x => x.tid = t.tid) = some t := by
    have hsome : ((execSeq plan muted evs).tasks.find? (fun x => x.tid = t.tid)).isSome = true := by
      rw [List.find?_isSome]
      exact ⟨t, ht, by simp⟩
    obtain ⟨u, hu⟩ := Option.isSome_iff_exists.mp hsome
    have hmem := List.mem_of_find?_eq_some hu
    have hpu : u.tid = t.tid := by simpa using List.find?_some hu
    rw [hu, h3 u hmem t ht hpu]
  constructor
  · simp only [stepSeq, hfind, hcanc, if_true]
  · simp only [stepSeq, hfind, hcanc, if_true]

/-- Witness for C1: after the index moves from 0 to 1 while the step-0 task
is still unresolved, that task (id 1, target 0, cancelled) resolving its
audio or its settle timer changes nothing. -/
theorem c1_stale_preparation_noop_witness :
    stepSeq (SeqEvent.audioReady 1 (some "stale"))
        (execSeq ["aaa", "bbb"] false [SeqEvent.mountFlow, SeqEvent.setIndex 1]) =
      execSeq ["aaa", "bbb"] false [SeqEvent.mountFlow, SeqEvent.setIndex 1] ∧
    stepSeq (SeqEvent.settleDone 1)
        (execSeq ["aaa", "bbb"] false [SeqEvent.mountFlow, SeqEvent.setIndex 1]) =
      execSeq ["aaa", "bbb"] false [SeqEvent.mountFlow, SeqEvent.setIndex 1] :=
  c1_stale_preparation_noop ["aaa", "bbb"] false [SeqEvent.mountFlow, SeqEvent.setIndex 1]
    ⟨1, 0, false, "aaa", true, false⟩ (some "stale") (by decide) (by decide)

/-- C6 counterexample: step 0's preparation is in flight (Loading) when the
mute flag is toggled from muted to unmuted. Before the toggle no synthesis
request exists; after the toggle the (restarted) preparation issues a
synthesis request for step 0 while the phase is still Loading. So mute is
consulted during preparation — not only at play time — and the preparation
in flight at the toggle does lead to a new synthesis request for that
step, contrary to the claim. -/
theorem c6_mute_toggle_requests_synthesis_mid_preparation :
    (execSeq ["textZero"] true [SeqEvent.mountFlow, SeqEvent.toggleMute]).ttsLog = [] ∧
    (execSeq ["textZero"] true [SeqEvent.mountFlow, SeqEvent.toggleMute]).isPreparing = true ∧
    (stepSeq (SeqEvent.issueTTS 2)
        (execSeq ["textZero"] true [SeqEvent.mountFlow, SeqEvent.toggleMute])).ttsLog =
      [(0, "textZero")] ∧
    (stepSeq (SeqEvent.issueTTS 2)
        (execSeq ["textZero"] true [SeqEvent.mountFlow, SeqEvent.toggleMute])).isPreparing =
      true := by
  decide

/-- C6 amended: toggling mute while a step is Loading cancels the in-flight
prepare closure and spawns a fresh one capturing the new mute value (the
prepare effect lists `isMuted` among its dependencies). Every closure left
uncancelled after the toggle carries the new mute value and targets the
current step, and when the toggle switches mute on, the freshly spawned
closure never issues a synthesis request. -/
theorem c6_toggle_respawns_preparation_with_new_mute (s : SeqState)
    (hprep : s.isPreparing = true)
    (hbound : s.currentStepIndex < s.plan.length)
    (hids : ∀ t ∈ s.tasks, t.tid < s.nextId) :
    ((stepSeq SeqEvent.toggleMute s).isMuted = !s.isMuted) ∧
    (∀ t ∈ (stepSeq SeqEvent.toggleMute s).tasks,
      t.cancelled = false → t.capMuted = !s.isMuted ∧ t.target = s.currentStepIndex) ∧
    (s.isMuted = false →
      (stepSeq (SeqEvent.issueTTS s.nextId) (stepSeq SeqEvent.toggleMute s)).ttsLog =
        (stepSeq SeqEvent.toggleMute s).ttsLog) := by
  have hcond : s.isPreparing ∧ s.currentStepIndex < s.plan.length := ⟨by rw [hprep], hbound⟩
  refine ⟨?_, ?_, ?_⟩
  · simp only [stepSeq, dif_pos hcond]
  · intro t ht hc
    simp only [stepSeq, dif_pos hcond] at ht
    rcases List.mem_append.mp ht with hmem | hmem
    · rcases List.mem_map.mp hmem with ⟨u, _, rfl⟩
      rw [cancelTask_cancelled] at hc
      cases hc
    · rw [List.mem_singleton] at hmem
      subst hmem
      exact ⟨rfl, rfl⟩
  · intro hmut
    simp only [stepSeq, dif_pos hcond]
    have hnone :
        (s.tasks.map cancelTask).find? (fun t => t.tid = s.nextId) = none := by
      rw [List.find?_eq_none]
      intro u hu
      rcases List.mem_map.mp hu with ⟨v, hv, rfl⟩
      rw [cancelTask_tid]
      simpa using Nat.ne_of_lt (hids v hv)
    rw [List.find?_append, hnone, Option.none_or]
    have hfind :
        ([(⟨s.nextId, s.currentStepIndex, !s.isMuted, s.plan.get ⟨s.currentStepIndex, hcond.2⟩,
            false, false⟩ : PrepTask)].find? (fun t => t.tid = s.nextId)) =
          some ⟨s.nextId, s.currentStepIndex, !s.isMuted,
            s.plan.get ⟨s.currentStepIndex, hcond.2⟩, false, false⟩ := by
      simp [List.find?]
    rw [hfind, hmut]
    simp

/-- Witness for C6 amended: the state after mounting an unmuted one-step
lesson is Loading with one live closure; the toggle respawns it muted and
the muted closure issues no request. -/
theorem c6_toggle_respawns_preparation_with_new_mute_witness :
    ((stepSeq SeqEvent.toggleMute (execSeq ["textZero"] false [SeqEvent.mountFlow])).isMuted =
      !(execSeq ["textZero"] false [SeqEvent.mountFlow]).isMuted) ∧
    (∀ t ∈ (stepSeq SeqEvent.toggleMute (execSeq ["textZero"] false [SeqEvent.mountFlow])).tasks,
      t.cancelled = false →
        t.capMuted = !(execSeq ["textZero"] false [SeqEvent.mountFlow]).isMuted ∧
        t.target = (execSeq ["textZero"] false [SeqEvent.mountFlow]).currentStepIndex) ∧
    ((execSeq ["textZero"] false [SeqEvent.mountFlow]).isMuted = false →
      (stepSeq (SeqEvent.issueTTS (execSeq ["textZero"] false [SeqEvent.mountFlow]).nextId)
          (stepSeq SeqEvent.toggleMute (execSeq ["textZero"] false [SeqEvent.mountFlow]))).ttsLog =
        (stepSeq SeqEvent.toggleMute (execSeq ["textZero"] false [SeqEvent.mountFlow])).ttsLog) :=
  c6_toggle_respawns_preparation_with_new_mute
    (execSeq ["textZero"] false [SeqEvent.mountFlow]) (by decide) (by decide) (by decide)

theorem silentDurationMs_30 : silentDurationMs 30 = 3000 := by
  unfold silentDurationMs
  rw [max_eq_left]
  norm_num

theorem silentDurationMs_60 : silentDurationMs 60 = 4000 := by
  unfold silentDurationMs
  rw [max_eq_right]
  · norm_num
  · norm_num

theorem silentDurationMs_90 : silentDurationMs 90 = 6000 := by
  unfold silentDurationMs
  rw [max_eq_right]
  · norm_num
  · norm_num

/-- C2 refuted: in the schedule `c2Trace` the step-0 `playPCM` call is
suspended at `await ctx.resume()` when the index moves on; `playPCM`
re-checks nothing after the await, so once the resume promise resolves the
stale call starts its source next to the already started step-1 source:
two device buffer sources play at once, and `audioSourceRef` points at
only one of them, so `stopAudio` can no longer release the other. -/
theorem c2_two_sources_play_after_stale_resume :
    (execPlayer ["alpha", "beta", "gamma"] false PlayerState.PLAYING c2Trace).playingSources.length = 2 ∧
    (execPlayer ["alpha", "beta", "gamma"] false PlayerState.PLAYING c2Trace).playingSources.map
        (fun src => src.sid) = [2, 1] ∧
    (execPlayer ["alpha", "beta", "gamma"] false PlayerState.PLAYING c2Trace).audioSourceRef =
      some 2 := by
  decide

/-- C3 refuted: in the schedule `c3Trace` the muted step-0 timer is not
cleared when the user advances to step 1 (the playback-effect cleanup only
calls `stopAudio`), and when it fires, the guard inside `handleEnded`
compares the captured render values of step 0 — which satisfy it — so the
superseded handle advances the live index from 1 to 2, skipping step 1
whose own timer (id 2) is still armed. -/
theorem c3_superseded_timer_fires_advance :
    (execPlayer ["alpha", "beta", "gamma"] true PlayerState.PLAYING (c3Trace.take 6)).currentStepIndex = 1 ∧
    (execPlayer ["alpha", "beta", "gamma"] true PlayerState.PLAYING c3Trace).currentStepIndex = 2 ∧
    (execPlayer ["alpha", "beta", "gamma"] true PlayerState.PLAYING c3Trace).timers.map
        (fun t => t.tid) = [2] := by
  decide

/-- C7: the uninterrupted muted run of a 3-step plan with narration lengths
30, 60 and 90 arms one silent timer per step, for those exact lengths; the
corresponding timed durations `max(3000, len/15*1000)` are 3000 ms,
4000 ms and 6000 ms; each grace timeout advances the sequencer, and after
the last step the playback phase is Completed. -/
theorem c7_muted_run_durations_and_completion :
    (execPlayer c7Plan true PlayerState.PLAYING c7Trace).timedLens = [30, 60, 90] ∧
    ((execPlayer c7Plan true PlayerState.PLAYING c7Trace).timedLens.map silentDurationMs =
      [3000, 4000, 6000]) ∧
    (execPlayer c7Plan true PlayerState.PLAYING c7Trace).playerState = PlayerState.COMPLETED ∧
    (execPlayer c7Plan true PlayerState.PLAYING c7Trace).currentStepIndex = 2 := by
  have hlens : (execPlayer c7Plan true PlayerState.PLAYING c7Trace).timedLens = [30, 60, 90] := by
    decide
  refine ⟨hlens, ?_, by decide, by decide⟩
  rw [hlens]
  simp only [List.map_cons, List.map_nil, silentDurationMs_30, silentDurationMs_60,
    silentDurationMs_90]

/-- C4 refuted: `generateGeminiTTS` checks the cache only before its
gateway request and writes it only after a successful response, so two
callers for the same text whose first request has not yet resolved both
miss the cache and both invoke the gateway: two invocations for one
distinct text in one session. -/
theorem c4_concurrent_callers_invoke_gateway_twice :
    gatewayCalls (execTts [TtsEvent.call 1 "hello", TtsEvent.call 2 "hello"]) "hello" = 2 ∧
    (execTts [TtsEvent.call 1 "hello", TtsEvent.call 2 "hello"]).audioCache = [] := by
  decide

/-- C4 amended: once a synthesis request for a text has completed
successfully the cache holds its trimmed text, and any later call for a
text with that trimmed form is answered from the cache — the state is
unchanged except for the recorded result, so no gateway invocation and no
new in-flight caller is created. Concurrent callers are not coalesced
(see the counterexample) but operate on the cache map without corruption:
a successful return stores exactly its own text/result pair. -/
theorem c4_cached_text_skips_gateway (s : TtsState) (cid : Nat) (text b : String)
    (hne : text ≠ "")
    (hcache : cacheLookup s.audioCache (trimText text) = some b) :
    stepTts (TtsEvent.call cid text) s = { s with results := s.results ++ [(cid, some b)] } := by
  simp only [stepTts, if_neg hne, hcache]

/-- Witness for C4 amended: after caller 1 succeeded for "hi there", a
later call for the same text is served from the cache. -/
theorem c4_cached_text_skips_gateway_witness :
    stepTts (TtsEvent.call 2 "hi there")
        (execTts [TtsEvent.call 1 "hi there", TtsEvent.gatewayReturn 1 (some "B64")]) =
      { execTts [TtsEvent.call 1 "hi there", TtsEvent.gatewayReturn 1 (some "B64")] with
        results :=
          (execTts [TtsEvent.call 1 "hi there", TtsEvent.gatewayReturn 1 (some "B64")]).results ++
            [(2, some "B64")] } :=
  c4_cached_text_skips_gateway
    (execTts [TtsEvent.call 1 "hi there", TtsEvent.gatewayReturn 1 (some "B64")])
    2 "hi there" "B64" (by decide) (by decide)

/-- C5 refuted: `toggleLiveSession` activation calls `onPause()` — the play
intent is overwritten with Paused — and deactivation only clears the live
flag, so activating during Playing and then deactivating leaves the player
Paused: the pre-activation Playing intent is not restored. The step index
is preserved. -/
theorem c5_play_intent_not_restored :
    (⟨PlayerState.PLAYING, false, 1, true⟩ : LiveState).playerState = PlayerState.PLAYING ∧
    (toggleLiveSession (toggleLiveSession ⟨PlayerState.PLAYING, false, 1, true⟩)).playerState =
      PlayerState.PAUSED ∧
    (toggleLiveSession (toggleLiveSession ⟨PlayerState.PLAYING, false, 1, true⟩)).playerState ≠
      (⟨PlayerState.PLAYING, false, 1, true⟩ : LiveState).playerState := by
  decide

/-- C5 amended: activating the live session pauses the play intent, stops
all current audio and raises the live flag; deactivating clears the live
flag with the step index unchanged, and the player resumes at that same
index in the Paused intent regardless of the intent held before
activation. -/
theorem c5_activation_pauses_deactivation_keeps_index (s : LiveState)
    (hlive : s.isLiveSession = false) :
    (toggleLiveSession s).playerState = PlayerState.PAUSED ∧
    (toggleLiveSession s).audioActive = false ∧
    (toggleLiveSession s).isLiveSession = true ∧
    (toggleLiveSession s).currentStepIndex = s.currentStepIndex ∧
    (toggleLiveSession (toggleLiveSession s)).isLiveSession = false ∧
    (toggleLiveSession (toggleLiveSession s)).currentStepIndex = s.currentStepIndex ∧
    (toggleLiveSession (toggleLiveSession s)).playerState = PlayerState.PAUSED := by
  simp [toggleLiveSession, hlive]

/-- Witness for C5 amended: a Playing session at step 3. -/
theorem c5_activation_pauses_deactivation_keeps_index_witness :
    (toggleLiveSession ⟨PlayerState.PLAYING, false, 3, true⟩).playerState = PlayerState.PAUSED ∧
    (toggleLiveSession ⟨PlayerState.PLAYING, false, 3, true⟩).audioActive = false ∧
    (toggleLiveSession ⟨PlayerState.PLAYING, false, 3, true⟩).isLiveSession = true ∧
    (toggleLiveSession ⟨PlayerState.PLAYING, false, 3, true⟩).currentStepIndex =
      (⟨PlayerState.PLAYING, false, 3, true⟩ : LiveState).currentStepIndex ∧
    (toggleLiveSession (toggleLiveSession ⟨PlayerState.PLAYING, false, 3, true⟩)).isLiveSession =
      false ∧
    (toggleLiveSession (toggleLiveSession ⟨PlayerState.PLAYING, false, 3, true⟩)).currentStepIndex =
      (⟨PlayerState.PLAYING, false, 3, true⟩ : LiveState).currentStepIndex ∧
    (toggleLiveSession (toggleLiveSession ⟨PlayerState.PLAYING, false, 3, true⟩)).playerState =
      PlayerState.PAUSED :=
  c5_activation_pauses_deactivation_keeps_index ⟨PlayerState.PLAYING, false, 3, true⟩ (by decide)

theorem setImageAt_get?_ne (l : List LessonStep) (i j : Nat) (u : String) (h : j ≠ i) :
    (setImageAt l i u).get? j = l.get? j := by
  induction l generalizing i j with
  | nil => simp [setImageAt]
  | cons st rest ih =>
      cases i with
      | zero =>
          cases j with
          | zero => exact absurd rfl h
          | succ j => simp [setImageAt]
      | succ i =>
          cases j with
          | zero => simp [setImageAt]
          | succ j =>
              simp only [setImageAt, List.get?_cons_succ]
              exact ih i j (fun hh => h (by rw [hh]))

theorem setImageAt_get?_eq (l : List LessonStep) (i : Nat) (u : String) (h : i < l.length) :
    (setImageAt l i u).get? i = (l.get? i).map (fun st => { st with imageUrl := some u }) := by
  induction l generalizing i with
  | nil => simp at h
  | cons st rest ih =>
      cases i with
      | zero => simp [setImageAt]
      | succ i =>
          simp only [setImageAt, List.get?_cons_succ]
          exact ih i (Nat.lt_of_succ_lt_succ h)

/-- C8: the enrichment merge is guarded by the topic identity check. A
result arriving when the live plan is absent or carries a different topic
leaves the state exactly as it was (the new lesson is never mutated); a
result for the still-active plan rewrites only the imageUrl of its target
step, leaving every other step untouched. -/
theorem c8_enrichment_identity_guard (prev : LessonPlan) (reqTopic : String)
    (i : Nat) (url : String) :
    (prev.topic ≠ reqTopic → mergeAssetResult (some prev) reqTopic i url = some prev) ∧
    mergeAssetResult none reqTopic i url = none ∧
    (prev.topic = reqTopic →
      mergeAssetResult (some prev) reqTopic i url =
        some { prev with steps := setImageAt prev.steps i url } ∧
      (∀ j, j ≠ i → (setImageAt prev.steps i url).get? j = prev.steps.get? j) ∧
      (i < prev.steps.length →
        (setImageAt prev.steps i url).get? i =
          (prev.steps.get? i).map (fun st => { st with imageUrl := some url }))) := by
  refine ⟨?_, rfl, ?_⟩
  · intro hne
    simp [mergeAssetResult, hne]
  · intro heq
    refine ⟨by simp [mergeAssetResult, heq], ?_, ?_⟩
    · intro j hj
      exact setImageAt_get?_ne prev.steps i j url hj
    · intro hlt
      exact setImageAt_get?_eq prev.steps i url hlt

/-- Witness for C8: a two-step plan on "volcanoes". A result issued under
topic "glaciers" is discarded; a result issued under "volcanoes" for step
1 only rewrites step 1's imageUrl. -/
theorem c8_enrichment_identity_guard_witness :
    ((⟨"volcanoes", [⟨0, "t0", "n0", "h0", "q0", "r0", "o0", 4000, none, none, none⟩,
        ⟨1, "t1", "n1", "h1", "q1", "o1", "d1", 5000, none, none, none⟩]⟩ : LessonPlan).topic ≠
        "glaciers" →
      mergeAssetResult
          (some ⟨"volcanoes", [⟨0, "t0", "n0", "h0", "q0", "r0", "o0", 4000, none, none, none⟩,
            ⟨1, "t1", "n1", "h1", "q1", "o1", "d1", 5000, none, none, none⟩]⟩)
          "glaciers" 1 "u" =
        some ⟨"volcanoes", [⟨0, "t0", "n0", "h0", "q0", "r0", "o0", 4000, none, none, none⟩,
          ⟨1, "t1", "n1", "h1", "q1", "o1", "d1", 5000, none, none, none⟩]⟩) ∧
    mergeAssetResult none "glaciers" 1 "u" = none ∧
    ((⟨"volcanoes", [⟨0, "t0", "n0", "h0", "q0", "r0", "o0", 4000, none, none, none⟩,
        ⟨1, "t1", "n1", "h1", "q1", "o1", "d1", 5000, none, none, none⟩]⟩ : LessonPlan).topic =
        "glaciers" →
      mergeAssetResult
          (some ⟨"volcanoes", [⟨0, "t0", "n0", "h0", "q0", "r0", "o0", 4000, none, none, none⟩,
            ⟨1, "t1", "n1", "h1", "q1", "o1", "d1", 5000, none, none, none⟩]⟩)
          "glaciers" 1 "u" =
        some ⟨"volcanoes",
          setImageAt [⟨0, "t0", "n0", "h0", "q0", "r0", "o0", 4000, none, none, none⟩,
            ⟨1, "t1", "n1", "h1", "q1", "o1", "d1", 5000, none, none, none⟩] 1 "u"⟩ ∧
      (∀ j, j ≠ 1 →
        (setImageAt [⟨0, "t0", "n0", "h0", "q0", "r0", "o0", 4000, none, none, none⟩,
          ⟨1, "t1", "n1", "h1", "q1", "o1", "d1", 5000, none, none, none⟩] 1 "u").get? j =
        ([⟨0, "t0", "n0", "h0", "q0", "r0", "o0", 4000, none, none, none⟩,
          ⟨1, "t1", "n1", "h1", "q1", "o1", "d1", 5000, none, none, none⟩] :
            List LessonStep).get? j) ∧
      (1 < ([⟨0, "t0", "n0", "h0", "q0", "r0", "o0", 4000, none, none, none⟩,
          ⟨1, "t1", "n1", "h1", "q1", "o1", "d1", 5000, none, none, none⟩] :
            List LessonStep).length →
        (setImageAt [⟨0, "t0", "n0", "h0", "q0", "r0", "o0", 4000, none, none, none⟩,
          ⟨1, "t1", "n1", "h1", "q1", "o1", "d1", 5000, none, none, none⟩] 1 "u").get? 1 =
        (([⟨0, "t0", "n0", "h0", "q0", "r0", "o0", 4000, none, none, none⟩,
          ⟨1, "t1", "n1", "h1", "q1", "o1", "d1", 5000, none, none, none⟩] :
            List LessonStep).get? 1).map (fun st => { st with imageUrl := some "u" }))) :=
  c8_enrichment_identity_guard
    ⟨"volcanoes", [⟨0, "t0", "n0", "h0", "q0", "r0", "o0", 4000, none, none, none⟩,
      ⟨1, "t1", "n1", "h1", "q1", "o1", "d1", 5000, none, none, none⟩]⟩
    "glaciers" 1 "u"

/-- C9: a follow-up answer moves the current index to its target step only
when the target is inside the plan; any out-of-range target (negative or
past the end) leaves the index unchanged, so from an in-bounds index the
index stays in bounds. -/
theorem c9_follow_up_target_bounds (t : Int) (cur numSteps : Nat)
    (hcur : cur < numSteps) :
    applyFollowUpTarget t cur numSteps < numSteps ∧
    ((t < 0 ∨ (numSteps : Int) ≤ t) → applyFollowUpTarget t cur numSteps = cur) ∧
    (0 ≤ t → t < (numSteps : Int) → applyFollowUpTarget t cur numSteps = t.toNat) := by
  unfold applyFollowUpTarget
  split
  · rename_i hc
    refine ⟨?_, ?_, fun _ _ => rfl⟩
    · rw [Int.toNat_lt hc.1]
      exact hc.2
    · intro hout
      rcases hout with hneg | hge
      · exact absurd hc.1 (by omega)
      · exact absurd hc.2 (by omega)
  · rename_i hc
    refine ⟨hcur, fun _ => rfl, ?_⟩
    intro hpos hlt
    exact absurd ⟨hpos, hlt⟩ hc

/-- Witness for C9: a 4-step plan at index 2; target 7 is rejected, target
3 accepted. -/
theorem c9_follow_up_target_bounds_witness :
    (applyFollowUpTarget 7 2 4 < 4 ∧
      (((7 : Int) < 0 ∨ (4 : Int) ≤ 7) → applyFollowUpTarget 7 2 4 = 2) ∧
      ((0 : Int) ≤ 7 → (7 : Int) < 4 → applyFollowUpTarget 7 2 4 = (7 : Int).toNat)) ∧
    (applyFollowUpTarget 3 2 4 < 4 ∧
      (((3 : Int) < 0 ∨ (4 : Int) ≤ 3) → applyFollowUpTarget 3 2 4 = 2) ∧
      ((0 : Int) ≤ 3 → (3 : Int) < 4 → applyFollowUpTarget 3 2 4 = (3 : Int).toNat)) :=
  ⟨c9_follow_up_target_bounds 7 2 4 (by decide),
   c9_follow_up_target_bounds 3 2 4 (by decide)⟩

theorem stepHasDataUrl_sanitizeStep (st : LessonStep) :
    stepHasDataUrl (sanitizeStep st) = false := by
  unfold sanitizeStep
  split
  · rfl
  · rename_i h
    simpa using h

theorem sessionClean_sanitize (s : SavedSession) :
    sessionClean (sanitizeSession s) = true := by
  simp only [sessionClean, sanitizeSession, List.all_eq_true]
  intro st hst
  rcases List.mem_map.mp hst with ⟨u, _, rfl⟩
  rw [stepHasDataUrl_sanitizeStep]
  rfl

/-- C10: a successful save stores at most 10 sessions, the sanitized copy
of the saved session first; if the stored list had pairwise-distinct ids
it still does (there is at most one entry per id, the one for the saved
id being the fresh copy in front), and if no stored step held a base64
image then none does afterwards — the sanitized copy never does.
Sanitizing is performed on a copy: the saved session value itself keeps
its id, topic, messages and index, and only imageUrls are stripped. -/
theorem c10_save_session_invariants (session : SavedSession) (existing : List SavedSession)
    (hids : (existing.map (fun s => s.id)).Nodup)
    (hclean : ∀ s ∈ existing, sessionClean s = true) :
    (saveSessionToStorage session existing).length ≤ 10 ∧
    (saveSessionToStorage session existing).head? = some (sanitizeSession session) ∧
    ((saveSessionToStorage session existing).map (fun s => s.id)).Nodup ∧
    (∀ s ∈ saveSessionToStorage session existing, sessionClean s = true) ∧
    (sanitizeSession session).id = session.id ∧
    (sanitizeSession session).topic = session.topic ∧
    (sanitizeSession session).messages = session.messages ∧
    (sanitizeSession session).currentStepIndex = session.currentStepIndex := by
  simp only [saveSessionToStorage]
  refine ⟨List.length_take_le 10 _, ?_, ?_, ?_, rfl, rfl, rfl, rfl⟩
  · rw [show (10 : Nat) = 9 + 1 from rfl, List.take_succ_cons]
    rfl
  · have hfsub :
        ((existing.filter (fun s => s.id ≠ (sanitizeSession session).id)).map
            (fun s => s.id)).Sublist (existing.map (fun s => s.id)) :=
      (List.filter_sublist existing).map _
    have hfnodup := List.Nodup.sublist hfsub hids
    have hnotmem :
        (sanitizeSession session).id ∉
          (existing.filter (fun s => s.id ≠ (sanitizeSession session).id)).map
            (fun s => s.id) := by
      intro hmem
      rcases List.mem_map.mp hmem with ⟨x, hx, hxid⟩
      have hpred := (List.mem_filter.mp hx).2
      simp only [decide_eq_true_eq] at hpred
      exact hpred hxid
    have hcons :
        (((sanitizeSession session) ::
            existing.filter (fun s => s.id ≠ (sanitizeSession session).id)).map
          (fun s => s.id)).Nodup := by
      rw [List.map_cons, List.nodup_cons]
      exact ⟨hnotmem, hfnodup⟩
    rw [List.map_take]
    exact List.Nodup.sublist (List.take_sublist 10 _) hcons
  · intro s hs
    have hs' := List.mem_of_mem_take hs
    rcases List.mem_cons.mp hs' with heq | hmem
    · rw [heq]
      exact sessionClean_sanitize session
    · exact hclean s (List.mem_filter.mp hmem).1

/-- Witness for C10: saving a session whose single step carries a base64
image into an empty store. -/
theorem c10_save_session_invariants_witness :
    (saveSessionToStorage (⟨"s1", "volcano", "now", ⟨"volcano", [⟨0, "t", "n", "h", "q", "r", "o", 3, some "data:x", none, none⟩]⟩, [], 0⟩ : SavedSession) []).length ≤ 10 ∧
    (saveSessionToStorage (⟨"s1", "volcano", "now", ⟨"volcano", [⟨0, "t", "n", "h", "q", "r", "o", 3, some "data:x", none, none⟩]⟩, [], 0⟩ : SavedSession) []).head? = some (sanitizeSession (⟨"s1", "volcano", "now", ⟨"volcano", [⟨0, "t", "n", "h", "q", "r", "o", 3, some "data:x", none, none⟩]⟩, [], 0⟩ : SavedSession)) ∧
    ((saveSessionToStorage (⟨"s1", "volcano", "now", ⟨"volcano", [⟨0, "t", "n", "h", "q", "r", "o", 3, some "data:x", none, none⟩]⟩, [], 0⟩ : SavedSession) []).map (fun s => s.id)).Nodup ∧
    (∀ s ∈ saveSessionToStorage (⟨"s1", "volcano", "now", ⟨"volcano", [⟨0, "t", "n", "h", "q", "r", "o", 3, some "data:x", none, none⟩]⟩, [], 0⟩ : SavedSession) [], sessionClean s = true) ∧
    (sanitizeSession (⟨"s1", "volcano", "now", ⟨"volcano", [⟨0, "t", "n", "h", "q", "r", "o", 3, some "data:x", none, none⟩]⟩, [], 0⟩ : SavedSession)).id = (⟨"s1", "volcano", "now", ⟨"volcano", [⟨0, "t", "n", "h", "q", "r", "o", 3, some "data:x", none, none⟩]⟩, [], 0⟩ : SavedSession).id ∧
    (sanitizeSession (⟨"s1", "volcano", "now", ⟨"volcano", [⟨0, "t", "n", "h", "q", "r", "o", 3, some "data:x", none, none⟩]⟩, [], 0⟩ : SavedSession)).topic = (⟨"s1", "volcano", "now", ⟨"volcano", [⟨0, "t", "n", "h", "q", "r", "o", 3, some "data:x", none, none⟩]⟩, [], 0⟩ : SavedSession).topic ∧
    (sanitizeSession (⟨"s1", "volcano", "now", ⟨"volcano", [⟨0, "t", "n", "h", "q", "r", "o", 3, some "data:x", none, none⟩]⟩, [], 0⟩ : SavedSession)).messages = (⟨"s1", "volcano", "now", ⟨"volcano", [⟨0, "t", "n", "h", "q", "r", "o", 3, some "data:x", none, none⟩]⟩, [], 0⟩ : SavedSession).messages ∧
    (sanitizeSession (⟨"s1", "volcano", "now", ⟨"volcano", [⟨0, "t", "n", "h", "q", "r", "o", 3, some "data:x", none, none⟩]⟩, [], 0⟩ : SavedSession)).currentStepIndex = (⟨"s1", "volcano", "now", ⟨"volcano", [⟨0, "t", "n", "h", "q", "r", "o", 3, some "data:x", none, none⟩]⟩, [], 0⟩ : SavedSession).currentStepIndex :=
  c10_save_session_invariants
    (⟨"s1", "volcano", "now", ⟨"volcano", [⟨0, "t", "n", "h", "q", "r", "o", 3, some "data:x", none, none⟩]⟩, [], 0⟩ : SavedSession) [] (by decide) (by decide)
